import Mathlib

set_option linter.unusedVariables false

/-! Verification development for the express-tongue localization
middleware (`src/middleware.js`, with the earlier variant `src/i18n.js`).

Modelling conventions:
- JavaScript objects coming from the JSON language files are modelled as
  association lists with first-match lookup (`lookupA`), which matches the
  unique-key objects produced by JSON parsing.
- The module-level mutable variables (`resources`, `defaultLang`,
  `defaultLangAbbr`, `languages`) are gathered in the `I18nState`
  structure; functions that in JavaScript read them take the state as an
  argument, and the one request handler that could conceivably write them
  (`serveLocaleData`) threads the state explicitly.
- Code that throws (`getLocaleData` on a wrong input type) returns
  `Except`; initialization code that can fail fatally (a missing or
  unreadable language file, where `realpathSync`/`require` throw) returns
  `Option`, with `none` for the fatal case.
- Query-string and cookie values are modelled as strings (the common case
  for the Express parsers); `req.user.language` is modelled as an optional
  string.  JavaScript truthiness of a string is `s ≠ ""`.
- `req.acceptsLanguages(languages)` is an Express collaborator; it is
  modelled as a function field of the request returning `none` for the
  JavaScript `false` (no acceptable language).
- `res.cookie(name, value, {maxAge})` is an Express collaborator; per the
  Express contract a cookie set without an explicit `path` option gets
  `Path=/`, so the recorded `CookieSet` carries `path := "/"`. -/

/-- A language resource file `<lang>.json`, shaped
`{lang, language, strings}`.  A file without a `strings` member is
modelled by the empty map. -/
structure LangFile where
  lang : String
  language : String
  strings : List (String × String)
deriving DecidableEq, Repr

/-- First-match lookup in an association list: the model of reading a
property of a JavaScript object. -/
def lookupA {α : Type} : List (String × α) → String → Option α
  | [], _ => none
  | p :: rest, key => if p.1 = key then some p.2 else lookupA rest key

/-- lodash `_.defaults(obj, src)`: keeps every entry of `obj` and appends
the entries of `src` whose key is absent from `obj`. -/
def jsDefaults (obj src : List (String × String)) : List (String × String) :=
  obj ++ src.filter (fun p => (lookupA obj p.1).isNone)

/-- The module-level state of the localization engine after (or during)
`initialize`: the `resources` cache in insertion order, the default
bundle, the default abbreviation and the `languages` list built from the
bundles' `lang` fields. -/
structure I18nState where
  resources : List (String × LangFile)
  defaultLang : LangFile
  defaultLangAbbr : String
  languages : List String
deriving DecidableEq, Repr

/-- `buildLang` (middleware.js lines 126-141, identical in i18n.js lines
62-80).  `dir` models the language directory: `dir lang` is the parsed
content of `<path>/<lang>.json`, `none` when the file is missing or
unreadable (in which case `buildLangPath`/`require` throw, modelled by the
`none` result).  `defaultStrings` is the current `defaultLang.strings`
(the empty map while the default language itself is being built, since
`defaultLang` is then the empty object and lodash ignores an `undefined`
source).  Returns the updated `resources` and the function's return value
(`none` models the `false` returned for an already-built language). -/
def buildLang (dir : String → Option LangFile) (resources : List (String × LangFile))
    (defaultStrings : List (String × String)) (lang : String) :
    Option (List (String × LangFile) × Option LangFile) :=
  if (lookupA resources lang).isSome then
    some (resources, none)
  else
    match dir lang with
    | none => none
    | some file =>
      let keyValues : LangFile := { file with strings := jsDefaults file.strings defaultStrings }
      some (resources ++ [(lang, keyValues)], some keyValues)

/-- The `languagesConfigured.forEach` loop of middleware.js `initialize`
(lines 99-105): builds every configured language, skipping the default
abbreviation. -/
def buildLangs (dir : String → Option LangFile) (defaultAbbr : String)
    (defaultStrings : List (String × String)) :
    List String → List (String × LangFile) → Option (List (String × LangFile))
  | [], r => some r
  | lang :: rest, r =>
    if lang = defaultAbbr then
      buildLangs dir defaultAbbr defaultStrings rest r
    else
      match buildLang dir r defaultStrings lang with
      | none => none
      | some (r', _) => buildLangs dir defaultAbbr defaultStrings rest r'

/-- The `for` loop of i18n.js `initialize` (lines 41-43): builds every
language from the configuration file, with no skip (the already-built
check inside `buildLang` handles duplicates). -/
def buildLangsAll (dir : String → Option LangFile)
    (defaultStrings : List (String × String)) :
    List String → List (String × LangFile) → Option (List (String × LangFile))
  | [], r => some r
  | lang :: rest, r =>
    match buildLang dir r defaultStrings lang with
    | none => none
    | some (r', _) => buildLangsAll dir defaultStrings rest r'

/-- `initialize` of middleware.js (lines 95-107): build the default
language first, then every configured language other than the default,
then set `languages = _.map(resources, 'lang')`.  The inner `none` case
(the first `buildLang` reporting an already-built language) is
unreachable because `resources` starts empty. -/
def mwInit (dir : String → Option LangFile) (defaultLangAbbr : String)
    (languagesConfigured : List String) : Option I18nState :=
  match buildLang dir [] [] defaultLangAbbr with
  | some (r1, some db) =>
    match buildLangs dir defaultLangAbbr db.strings languagesConfigured r1 with
    | none => none
    | some r2 =>
      some { resources := r2, defaultLang := db, defaultLangAbbr := defaultLangAbbr,
             languages := r2.map (fun p => p.2.lang) }
  | _ => none

/-- `initialize` of i18n.js (lines 35-45): same as the middleware variant
except that the configured-language loop does not skip the default
abbreviation. -/
def i18nInit (dir : String → Option LangFile) (defaultLangAbbr : String)
    (configLanguages : List String) : Option I18nState :=
  match buildLang dir [] [] defaultLangAbbr with
  | some (r1, some db) =>
    match buildLangsAll dir db.strings configLanguages r1 with
    | none => none
    | some r2 =>
      some { resources := r2, defaultLang := db, defaultLangAbbr := defaultLangAbbr,
             languages := r2.map (fun p => p.2.lang) }
  | _ => none

/-- `getLang` (middleware.js lines 163-170, identical in i18n.js lines
109-116): resources for the language when cached, else the default
bundle. -/
def getLang (st : I18nState) (lang : String) : LangFile :=
  match lookupA st.resources lang with
  | some b => b
  | none => st.defaultLang

/-- The possible JavaScript values handed to `getLocaleData`: a string, an
array of strings, or anything else (a number, an object, `undefined`...). -/
inductive LangInput where
  | str (s : String)
  | list (xs : List String)
  | other
deriving DecidableEq, Repr

/-- `true` exactly on the string constructor. -/
def LangInput.isStr : LangInput → Bool
  | .str _ => true
  | _ => false

/-- `true` exactly on the array constructor. -/
def LangInput.isList : LangInput → Bool
  | .list _ => true
  | _ => false

/-- `getLocaleData` of middleware.js (lines 149-155): throws
`TypeError('Wrong method input!')` for every non-string input (an array
included), otherwise `getLang`. -/
def getLocaleData (st : I18nState) (langString : LangInput) : Except String LangFile :=
  match langString with
  | .str s => .ok (getLang st s)
  | _ => .error "Wrong method input!"

/-- One iteration of `parseLangs` (i18n.js lines 144-153):
`item.indexOf('-')` and `item.substr(0, pos)` keep only the language part
of a locale tag. -/
def parseLangItem (item : String) : String :=
  if item.toList.contains '-' then String.mk (item.toList.takeWhile (fun c => c ≠ '-'))
  else item

/-- lodash `_.uniq` with an explicit seen-accumulator: keeps the first
occurrence of each element. -/
def uniqAux : List String → List String → List String
  | [], _ => []
  | x :: xs, seen => if x ∈ seen then uniqAux xs seen else x :: uniqAux xs (x :: seen)

/-- lodash `_.uniq`. -/
def uniqJS (xs : List String) : List String :=
  uniqAux xs []

/-- `parseLangs` of i18n.js (lines 142-158): strip locale suffixes, then
`_.compact` (drop falsy values, for strings the empty string), then
`_.uniq`. -/
def parseLangs (langArray : List String) : List String :=
  uniqJS ((langArray.map parseLangItem).filter (fun s => s ≠ ""))

/-- The `for` loop of `getLangs` (i18n.js lines 127-132): first parsed
language with cached resources. -/
def getLangsAux (st : I18nState) : List String → LangFile
  | [] => st.defaultLang
  | l :: rest =>
    match lookupA st.resources l with
    | some b => b
    | none => getLangsAux st rest

/-- `getLangs` of i18n.js (lines 123-135): parse the language array and
return the first available language, else the default bundle. -/
def getLangs (st : I18nState) (langString : List String) : LangFile :=
  getLangsAux st (parseLangs langString)

/-- `getLocaleData` of i18n.js (lines 87-102): a string goes to `getLang`;
an array is first replaced by `[defaultLangAbbr]` when it is exactly
`["null"]` (the Express null-as-string workaround) and then goes to
`getLangs`; anything else throws `Error('Wrong method input!')`. -/
def i18nGetLocaleData (st : I18nState) (langString : LangInput) : Except String LangFile :=
  match langString with
  | .str s => .ok (getLang st s)
  | .list xs =>
    let xs := if xs.length = 1 ∧ xs.getD 0 "" = "null" then [st.defaultLangAbbr] else xs
    .ok (getLangs st xs)
  | .other => .error "Wrong method input!"

/-- `{name: item.language, value: item.lang}` entries produced by
`getLanguages`. -/
structure LanguageEntry where
  name : String
  value : String
deriving DecidableEq, Repr

/-- `getLanguages` (middleware.js lines 177-181): one entry per entry of
the `resources` cache. -/
def getLanguages (st : I18nState) : List LanguageEntry :=
  st.resources.map (fun p => { name := p.2.language, value := p.2.lang })

/-- The configuration options of middleware.js after the defaulting block
(lines 53-61), restricted to the fields the request path reads. -/
structure MwOptions where
  defaultLang : String
  endpointEnabled : Bool
  endpointPath : String
  queryStringEnabled : Bool
  queryStringKey : String
  langCookie : String
deriving Repr

/-- The authenticated-user object: `req.user.language` may be absent. -/
structure ReqUser where
  language : Option String
deriving Repr

/-- The per-request signals read by `serveLocaleData`: the optional
authenticated user, the parsed query object, the parsed cookie object
(`none` when no cookie middleware populated `req.cookies`), and the
Express `req.acceptsLanguages` negotiation primitive (`none` models the
JavaScript `false`). -/
structure Request where
  user : Option ReqUser
  query : List (String × String)
  cookies : Option (List (String × String))
  acceptsLanguages : List String → Option String

/-- A cookie recorded by `res.cookie(name, value, {maxAge})`; Express
fills `Path=/` when no path option is given. -/
structure CookieSet where
  name : String
  value : String
  path : String
  maxAge : Nat
deriving DecidableEq, Repr

/-- What `serveLocaleData` leaves on the response: the bundle stored in
`res.locals.i18n` and the cookies issued via `res.cookie`. -/
structure ResolveResult where
  i18n : LangFile
  cookies : List CookieSet
deriving DecidableEq, Repr

/-- `cookieTTL` (middleware.js line 72): one year in milliseconds. -/
def cookieTTL : Nat := 365 * 24 * 3600000

/-- The guard `req.user && req.user.language` of middleware.js line 195,
together with the value used when it holds: `some s` exactly when an
authenticated user carries a truthy (non-empty) `language` string. -/
def userLangOf (req : Request) : Option String :=
  match req.user with
  | none => none
  | some u =>
    match u.language with
    | none => none
    | some s => if s = "" then none else some s

/-- The guard `req.query && queryValue && queryValue.length === 2` of
middleware.js line 199 together with the value used: `some v` exactly
when the query parameter named `queryStringKey` is a truthy string of
length 2 (`req.query` itself always exists per the Express contract). -/
def queryLangOf (opts : MwOptions) (req : Request) : Option String :=
  match lookupA req.query opts.queryStringKey with
  | none => none
  | some v => if v ≠ "" ∧ v.length = 2 then some v else none

/-- The guard `req.cookies && req.cookies[options.langCookie]` of
middleware.js line 203 together with the value used: `some v` exactly
when the cookie object exists and holds a truthy value under
`langCookie`. -/
def cookieLangOf (opts : MwOptions) (req : Request) : Option String :=
  match req.cookies with
  | none => none
  | some cs =>
    match lookupA cs opts.langCookie with
    | none => none
    | some v => if v = "" then none else some v

/-- `serveLocaleData` of middleware.js (lines 190-222), with the module
state threaded explicitly: the second component of the result is the
module state after the call (the function body contains no assignment to
`resources`, `defaultLang`, `defaultLangAbbr` or `languages`, so the
state is returned unchanged).  The first component is the response
outcome: the bundle assigned to `res.locals.i18n` and the cookies issued,
or the error when `getLocaleData` throws (never reachable from this
handler, which only passes strings). -/
def serveLocaleDataSt (st : I18nState) (opts : MwOptions) (req : Request) :
    Except String ResolveResult × I18nState :=
  let r : Except String ResolveResult :=
    match userLangOf req with
    | some s => (getLocaleData st (LangInput.str s)).map (fun b => { i18n := b, cookies := [] })
    | none =>
      match queryLangOf opts req with
      | some v =>
        (getLocaleData st (LangInput.str v)).map (fun b =>
          { i18n := b,
            cookies := [{ name := opts.langCookie, value := v, path := "/", maxAge := cookieTTL }] })
      | none =>
        match cookieLangOf opts req with
        | some c => (getLocaleData st (LangInput.str c)).map (fun b => { i18n := b, cookies := [] })
        | none =>
          let accepted :=
            match req.acceptsLanguages st.languages with
            | some a => if a = "" then st.defaultLangAbbr else a
            | none => st.defaultLangAbbr
          (getLocaleData st (LangInput.str accepted)).map (fun b => { i18n := b, cookies := [] })
  (r, st)

/-- The bundle `serveLocaleData` leaves in `res.locals.i18n`, when it does
not throw. -/
def resolvedBundle (st : I18nState) (opts : MwOptions) (req : Request) : Option LangFile :=
  ((serveLocaleDataSt st opts req).1.toOption).map (fun r => r.i18n)

/-- The cookies `serveLocaleData` issues, when it does not throw. -/
def issuedCookies (st : I18nState) (opts : MwOptions) (req : Request) : Option (List CookieSet) :=
  ((serveLocaleDataSt st opts req).1.toOption).map (fun r => r.cookies)

/-- `serveLanguages` (middleware.js lines 253-255): responds with
`getLanguages()`, reading nothing from the request. -/
def serveLanguages (st : I18nState) (req : Request) : List LanguageEntry :=
  getLanguages st

/-- JavaScript `String.prototype.lastIndexOf` for a single character:
the index of the last occurrence, `-1` when absent. -/
def jsLastIndexOf (s : String) (c : Char) : Int :=
  match s.toList.reverse.findIdx? (fun x => x = c) with
  | none => -1
  | some i => (s.toList.length : Int) - 1 - (i : Int)

/-- JavaScript `String.prototype.substring`: clamps both arguments to
`[0, length]` and swaps them when out of order. -/
def jsSubstring (s : String) (start finish : Int) : String :=
  let n : Int := (s.toList.length : Int)
  let a : Nat := (max 0 (min start n)).toNat
  let b : Nat := (max 0 (min finish n)).toNat
  String.mk ((s.toList.drop (min a b)).take (max a b - min a b))

/-- The endpoint registration block of middleware.js (lines 263-273).
Line 268 evaluates `endpointPath.substring(0, lastSlash)` but never
assigns the result (JavaScript strings are immutable), so the routes are
registered with the original `endpointPath`; the discarded value is kept
here as `_discarded` to mirror the statement. -/
def endpointRoutes (endpointPath : String) : List String :=
  let lastSlash := jsLastIndexOf endpointPath '/'
  let endpointPath :=
    if lastSlash = (endpointPath.toList.length : Int) - 1 then
      let _discarded := jsSubstring endpointPath 0 lastSlash
      endpointPath
    else endpointPath
  [endpointPath, endpointPath ++ "/strings", endpointPath ++ "/languages"]

/-- `true` on `Except.ok`: the call returned normally rather than
throwing. -/
def exceptOk {α : Type} : Except String α → Bool
  | .ok _ => true
  | .error _ => false

/-- Claim C1's first signal, as the claim words it: "the request carries
an authenticated user with a language preference" (an empty string is not
a preference). -/
def claimUserSignal (req : Request) : Option String :=
  req.user.bind (fun u => u.language.bind (fun s => if s = "" then none else some s))

/-- Claim C1's second signal, as the claim words it: "the query-string
parameter named by queryStringKey is present and its value is exactly 2
characters long". -/
def claimQuerySignal (opts : MwOptions) (req : Request) : Option String :=
  (lookupA req.query opts.queryStringKey).bind (fun v => if v.length = 2 then some v else none)

/-- Claim C1's third signal, as the claim words it: "the cookie named
langCookie is present" — presence alone, whatever the value. -/
def claimCookieSignal (opts : MwOptions) (req : Request) : Option String :=
  req.cookies.bind (fun cs => lookupA cs opts.langCookie)

/-- The third signal after the minimal amendment: the cookie is present
with a non-empty value. -/
def amendedCookieSignal (opts : MwOptions) (req : Request) : Option String :=
  req.cookies.bind (fun cs =>
    (lookupA cs opts.langCookie).bind (fun v => if v = "" then none else some v))

/-- The resolution chain exactly as claim C1 states it: user preference,
else 2-character query value, else cookie value whenever the cookie is
present, else the negotiation result, else the default abbreviation. -/
def claimChainLang (st : I18nState) (opts : MwOptions) (req : Request) : String :=
  match claimUserSignal req with
  | some s => s
  | none =>
    match claimQuerySignal opts req with
    | some v => v
    | none =>
      match claimCookieSignal opts req with
      | some c => c
      | none =>
        match req.acceptsLanguages st.languages with
        | some a => a
        | none => st.defaultLangAbbr

/-- The resolution chain of the amended claim: as `claimChainLang`, with
the cookie step firing only when the cookie value is non-empty. -/
def amendedChainLang (st : I18nState) (opts : MwOptions) (req : Request) : String :=
  match claimUserSignal req with
  | some s => s
  | none =>
    match claimQuerySignal opts req with
    | some v => v
    | none =>
      match amendedCookieSignal opts req with
      | some c => c
      | none =>
        match req.acceptsLanguages st.languages with
        | some a => a
        | none => st.defaultLangAbbr

/-! Concrete instances used by counterexamples and witnesses. -/

/-- Example `en.json`: the default language of the end-to-end scenario. -/
def enFile : LangFile :=
  { lang := "en", language := "English", strings := [("greeting", "Hello"), ("farewell", "Bye")] }

/-- Example `es.json`: overrides `greeting`, lacks `farewell`. -/
def esFile : LangFile :=
  { lang := "es", language := "Spanish", strings := [("greeting", "Hola")] }

/-- Example language directory holding `en.json` and `es.json`. -/
def exDir : String → Option LangFile := fun l =>
  if l = "en" then some enFile else if l = "es" then some esFile else none

/-- The `en` bundle after the middleware initialization (the default
bundle is merged against the empty map, so its strings are its own). -/
def enBundle : LangFile :=
  { lang := "en", language := "English", strings := [("greeting", "Hello"), ("farewell", "Bye")] }

/-- The `es` bundle after the middleware initialization with default
`en`: its own `greeting` survives, the missing `farewell` is filled from
the default. -/
def esBundle : LangFile :=
  { lang := "es", language := "Spanish", strings := [("greeting", "Hola"), ("farewell", "Bye")] }

/-- The engine state produced by the middleware initialization over
`exDir` with default `en` and configured languages `["es"]`. -/
def exStMw : I18nState :=
  { resources := [("en", enBundle), ("es", esBundle)], defaultLang := enBundle,
    defaultLangAbbr := "en", languages := ["en", "es"] }

/-- The `en` bundle after the i18n.js initialization with default `es`:
its own `greeting` survives and `es` contributes no further key. -/
def enBundleEs : LangFile :=
  { lang := "en", language := "English", strings := [("greeting", "Hello"), ("farewell", "Bye")] }

/-- The engine state produced by the i18n.js initialization over `exDir`
with default `es` and configured languages `["en"]`. -/
def exStI18n : I18nState :=
  { resources := [("es", esFile), ("en", enBundleEs)], defaultLang := esFile,
    defaultLangAbbr := "es", languages := ["es", "en"] }

/-- The default middleware options (middleware.js lines 53-61). -/
def exOpts : MwOptions :=
  { defaultLang := "en", endpointEnabled := false, endpointPath := "/i18n",
    queryStringEnabled := false, queryStringKey := "hl", langCookie := "xp_i18n_lang" }

/-- A request carrying only a `langCookie` cookie with an empty value,
whose Accept-Language negotiation would yield `es`. -/
def reqEmptyCookie : Request :=
  { user := none, query := [], cookies := some [("xp_i18n_lang", "")],
    acceptsLanguages := fun langs => if langs.contains "es" then some "es" else none }

/-- A request with no signals at all. -/
def reqBlank : Request :=
  { user := none, query := [], cookies := none, acceptsLanguages := fun _ => none }

/-- A request whose only signal is a cookie holding the unloaded
abbreviation `fr`. -/
def reqFrCookie : Request :=
  { user := none, query := [], cookies := some [("xp_i18n_lang", "fr")],
    acceptsLanguages := fun _ => none }

/-- A request with both a 2-character query value `es` and an `en`
cookie. -/
def reqQueryEs : Request :=
  { user := none, query := [("hl", "es")], cookies := some [("xp_i18n_lang", "en")],
    acceptsLanguages := fun _ => none }


/-! Association-list and merge lemmas. -/

theorem lookupA_append_some {α : Type} (l₁ l₂ : List (String × α)) (k : String) (v : α)
    (h : lookupA l₁ k = some v) : lookupA (l₁ ++ l₂) k = some v := by
  induction l₁ with
  | nil => simp [lookupA] at h
  | cons p rest ih =>
    by_cases hp : p.1 = k
    · simp [lookupA, hp] at h ⊢; exact h
    · simp [lookupA, hp] at h ⊢; exact ih h

theorem lookupA_append_none {α : Type} (l₁ l₂ : List (String × α)) (k : String)
    (h : lookupA l₁ k = none) : lookupA (l₁ ++ l₂) k = lookupA l₂ k := by
  induction l₁ with
  | nil => simp
  | cons p rest ih =>
    by_cases hp : p.1 = k
    · simp [lookupA, hp] at h
    · simp [lookupA, hp] at h ⊢; exact ih h

theorem lookupA_filter_of_none (obj src : List (String × String)) (k : String)
    (h : lookupA obj k = none) :
    lookupA (src.filter (fun p => (lookupA obj p.1).isNone)) k = lookupA src k := by
  induction src with
  | nil => rfl
  | cons p rest ih =>
    by_cases hp : p.1 = k
    · have hkeep : (lookupA obj p.1).isNone = true := by rw [hp, h]; rfl
      simp [List.filter_cons, hkeep, lookupA, hp, h]
    · cases hq : (lookupA obj p.1).isNone
      · simp [List.filter_cons, hq, lookupA, hp, ih]
      · simp [List.filter_cons, hq, lookupA, hp, ih]

theorem jsDefaults_some (obj src : List (String × String)) (k : String) (v : String)
    (h : lookupA obj k = some v) : lookupA (jsDefaults obj src) k = some v :=
  lookupA_append_some _ _ _ _ h

theorem jsDefaults_none (obj src : List (String × String)) (k : String)
    (h : lookupA obj k = none) : lookupA (jsDefaults obj src) k = lookupA src k := by
  rw [jsDefaults, lookupA_append_none _ _ _ h, lookupA_filter_of_none _ _ _ h]

theorem jsDefaults_isSome (obj src : List (String × String)) (k : String)
    (h : (lookupA src k).isSome = true) : (lookupA (jsDefaults obj src) k).isSome = true := by
  cases ho : lookupA obj k with
  | none => rw [jsDefaults_none _ _ _ ho]; exact h
  | some v => rw [jsDefaults_some _ _ _ _ ho]; rfl

theorem lookupA_not_mem_keys {α : Type} (r : List (String × α)) (k : String)
    (h : lookupA r k = none) : k ∉ r.map Prod.fst := by
  induction r with
  | nil => simp
  | cons p rest ih =>
    by_cases hp : p.1 = k
    · simp [lookupA, hp] at h
    · simp [lookupA, hp] at h
      simp [hp, ih h]
      exact fun he => hp he.symm

/-! Invariants of the resource store under `buildLang`. -/

/-- The load-time invariant of the resource cache relative to the default
strings `dbS`: every cached bundle covers every key of `dbS`, and stores
its own file's value for every key its own file defines. -/
def StoreInv (dir : String → Option LangFile) (dbS : List (String × String))
    (r : List (String × LangFile)) : Prop :=
  ∀ l b, (l, b) ∈ r →
    (∀ k, (lookupA dbS k).isSome = true → (lookupA b.strings k).isSome = true) ∧
    (∀ f k v, dir l = some f → lookupA f.strings k = some v → lookupA b.strings k = some v)

theorem buildLang_inv (dir : String → Option LangFile) (dbS : List (String × String))
    (r : List (String × LangFile)) (lang : String) (r' : List (String × LangFile))
    (o : Option LangFile) (hinv : StoreInv dir dbS r)
    (h : buildLang dir r dbS lang = some (r', o)) : StoreInv dir dbS r' := by
  unfold buildLang at h
  by_cases hl : (lookupA r lang).isSome = true
  · simp [hl] at h
    exact h.1 ▸ hinv
  · simp [hl] at h
    cases hd : dir lang with
    | none => simp [hd] at h
    | some f =>
      simp [hd] at h
      obtain ⟨hr, _⟩ := h
      subst hr
      intro l b hmem
      rcases List.mem_append.1 hmem with hm | hm
      · exact hinv l b hm
      · simp at hm
        obtain ⟨hle, hbe⟩ := hm
        subst hle
        subst hbe
        constructor
        · intro k hk
          exact jsDefaults_isSome _ _ _ hk
        · intro f' k v hf' hfk
          rw [hd] at hf'
          injection hf' with hf'
          exact jsDefaults_some _ _ _ _ (hf' ▸ hfk)

theorem buildLangs_inv (dir : String → Option LangFile) (abbr : String)
    (dbS : List (String × String)) (cfg : List String) (r r' : List (String × LangFile))
    (hinv : StoreInv dir dbS r) (h : buildLangs dir abbr dbS cfg r = some r') :
    StoreInv dir dbS r' := by
  induction cfg generalizing r with
  | nil =>
    unfold buildLangs at h
    injection h with h
    exact h ▸ hinv
  | cons lang rest ih =>
    unfold buildLangs at h
    by_cases he : lang = abbr
    · simp [he] at h
      exact ih r hinv h
    · simp [he] at h
      cases hb : buildLang dir r dbS lang with
      | none => rw [hb] at h; simp at h
      | some p =>
        rw [hb] at h
        simp at h
        exact ih p.1 (buildLang_inv dir dbS r lang p.1 p.2 hinv (by rw [hb])) h

theorem buildLang_nodup (dir : String → Option LangFile) (dbS : List (String × String))
    (r : List (String × LangFile)) (lang : String) (r' : List (String × LangFile))
    (o : Option LangFile) (h : buildLang dir r dbS lang = some (r', o))
    (hn : (r.map Prod.fst).Nodup) : (r'.map Prod.fst).Nodup := by
  unfold buildLang at h
  by_cases hl : (lookupA r lang).isSome = true
  · simp [hl] at h
    exact h.1 ▸ hn
  · simp [hl] at h
    cases hd : dir lang with
    | none => simp [hd] at h
    | some f =>
      simp [hd] at h
      obtain ⟨hr, _⟩ := h
      subst hr
      have hnm : lang ∉ r.map Prod.fst := by
        refine lookupA_not_mem_keys _ _ ?_
        cases hx : lookupA r lang with
        | none => rfl
        | some v => rw [hx] at hl; simp at hl
      rw [List.map_append]
      refine List.Nodup.append hn (by simp) ?_
      intro a ha hb
      simp at hb
      subst hb
      exact hnm ha

theorem buildLangs_nodup (dir : String → Option LangFile) (abbr : String)
    (dbS : List (String × String)) (cfg : List String) (r r' : List (String × LangFile))
    (hn : (r.map Prod.fst).Nodup) (h : buildLangs dir abbr dbS cfg r = some r') :
    (r'.map Prod.fst).Nodup := by
  induction cfg generalizing r with
  | nil =>
    unfold buildLangs at h
    injection h with h
    exact h ▸ hn
  | cons lang rest ih =>
    unfold buildLangs at h
    by_cases he : lang = abbr
    · simp [he] at h
      exact ih r hn h
    · simp [he] at h
      cases hb : buildLang dir r dbS lang with
      | none => rw [hb] at h; simp at h
      | some p =>
        rw [hb] at h
        simp at h
        exact ih p.1 (buildLang_nodup dir dbS r lang p.1 p.2 (by rw [hb]) hn) h

theorem buildLang_preserve (dir : String → Option LangFile) (dbS : List (String × String))
    (r : List (String × LangFile)) (lang : String) (r' : List (String × LangFile))
    (o : Option LangFile) (k : String) (v : LangFile)
    (h : buildLang dir r dbS lang = some (r', o)) (hk : lookupA r k = some v) :
    lookupA r' k = some v := by
  unfold buildLang at h
  by_cases hl : (lookupA r lang).isSome = true
  · simp [hl] at h
    exact h.1 ▸ hk
  · simp [hl] at h
    cases hd : dir lang with
    | none => simp [hd] at h
    | some f =>
      simp [hd] at h
      obtain ⟨hr, _⟩ := h
      subst hr
      exact lookupA_append_some _ _ _ _ hk

theorem buildLangsAll_preserve (dir : String → Option LangFile)
    (dbS : List (String × String)) (cfg : List String) (r r' : List (String × LangFile))
    (k : String) (v : LangFile) (hk : lookupA r k = some v)
    (h : buildLangsAll dir dbS cfg r = some r') : lookupA r' k = some v := by
  induction cfg generalizing r with
  | nil =>
    unfold buildLangsAll at h
    injection h with h
    exact h ▸ hk
  | cons lang rest ih =>
    unfold buildLangsAll at h
    cases hb : buildLang dir r dbS lang with
    | none => rw [hb] at h; simp at h
    | some p =>
      rw [hb] at h
      simp at h
      exact ih p.1 (buildLang_preserve dir dbS r lang p.1 p.2 k v (by rw [hb]) hk) h

theorem buildLang_nil (dir : String → Option LangFile) (abbr : String) :
    buildLang dir [] [] abbr =
      match dir abbr with
      | none => none
      | some file =>
        some ([(abbr, { file with strings := jsDefaults file.strings [] })],
          some { file with strings := jsDefaults file.strings [] }) := by
  cases hd : dir abbr <;> simp [buildLang, lookupA, hd]

/-- Destructuring of a successful middleware initialization: the default
file exists, the default bundle is that file merged against the empty
map, and the resource cache results from the configured-language loop
started on the one-entry cache holding the default bundle. -/
theorem mwInit_spec (dir : String → Option LangFile) (abbr : String) (cfg : List String)
    (st : I18nState) (h : mwInit dir abbr cfg = some st) :
    ∃ f0, dir abbr = some f0 ∧
      st.defaultLang = { f0 with strings := jsDefaults f0.strings [] } ∧
      st.defaultLangAbbr = abbr ∧
      buildLangs dir abbr st.defaultLang.strings cfg [(abbr, st.defaultLang)] =
        some st.resources ∧
      st.languages = st.resources.map (fun p => p.2.lang) := by
  unfold mwInit at h
  cases hd : dir abbr with
  | none => simp [buildLang_nil, hd] at h
  | some f0 =>
    simp only [buildLang_nil, hd] at h
    cases hbl : buildLangs dir abbr (jsDefaults f0.strings []) cfg
        [(abbr, { f0 with strings := jsDefaults f0.strings [] })] with
    | none => rw [hbl] at h; simp at h
    | some r2 =>
      rw [hbl] at h
      simp at h
      subst h
      exact ⟨f0, rfl, rfl, rfl, hbl, rfl⟩

/-- Destructuring of a successful i18n.js initialization: the stored
default abbreviation is the configured one and the resource cache maps it
to the default bundle (the first entry built, never overwritten). -/
theorem i18nInit_spec (dir : String → Option LangFile) (abbr : String) (cfg : List String)
    (st : I18nState) (h : i18nInit dir abbr cfg = some st) :
    st.defaultLangAbbr = abbr ∧ lookupA st.resources abbr = some st.defaultLang := by
  unfold i18nInit at h
  cases hd : dir abbr with
  | none => simp [buildLang_nil, hd] at h
  | some f0 =>
    simp only [buildLang_nil, hd] at h
    cases hbl : buildLangsAll dir (jsDefaults f0.strings []) cfg
        [(abbr, { f0 with strings := jsDefaults f0.strings [] })] with
    | none => rw [hbl] at h; simp at h
    | some r2 =>
      rw [hbl] at h
      simp at h
      subst h
      refine ⟨rfl, ?_⟩
      refine buildLangsAll_preserve dir _ cfg _ _ _ _ ?_ hbl
      simp [lookupA]

/-- C2.  After initialization every loaded bundle's strings cover all
keys of the default bundle's strings, and for each key its own file
defines, the stored value is the file's own (the merge fills gaps only,
it never overrides). -/
theorem C2_merge_fills_gaps_only (dir : String → Option LangFile) (abbr : String)
    (cfg : List String) (st : I18nState) (l : String) (b f : LangFile)
    (hinit : mwInit dir abbr cfg = some st) (hmem : (l, b) ∈ st.resources)
    (hfile : dir l = some f) :
    (∀ k, (lookupA st.defaultLang.strings k).isSome = true →
      (lookupA b.strings k).isSome = true) ∧
    (∀ k v, lookupA f.strings k = some v → lookupA b.strings k = some v) := by
  obtain ⟨f0, hd0, hdb, habbr, hbl, _⟩ := mwInit_spec dir abbr cfg st hinit
  have hbase : StoreInv dir st.defaultLang.strings [(abbr, st.defaultLang)] := by
    intro l' b' hm
    simp at hm
    obtain ⟨rfl, rfl⟩ := hm
    constructor
    · intro k hk
      exact hk
    · intro f' k v hf' hfk
      rw [hd0] at hf'
      injection hf' with hf'
      subst hf'
      rw [hdb]
      exact jsDefaults_some _ _ _ _ hfk
  have hinv := buildLangs_inv dir abbr st.defaultLang.strings cfg _ _ hbase hbl
  exact ⟨(hinv l b hmem).1, fun k v hv => (hinv l b hmem).2 f k v hfile hv⟩

/-- Witness for C2 on the concrete store: the `es` bundle inherited
`farewell` from the default and kept its own `greeting`. -/
theorem C2_witness :
    (lookupA esBundle.strings "farewell").isSome = true ∧
    lookupA esBundle.strings "greeting" = some "Hola" := by
  have h := C2_merge_fills_gaps_only exDir "en" ["es"] exStMw "es" esBundle esFile
    (by decide) (by decide) (by decide)
  exact ⟨h.1 "farewell" (by decide), h.2 "greeting" "Hola" (by decide)⟩

/-! The claim-side signals coincide with the code-side guards (up to the
cookie signal, where the claim's bare "present" differs from the code's
truthiness test). -/

theorem claimUserSignal_eq (req : Request) : claimUserSignal req = userLangOf req := by
  unfold claimUserSignal userLangOf
  cases hu : req.user with
  | none => rfl
  | some u =>
    cases hl : u.language with
    | none => simp [hl]
    | some s => simp [hl]

theorem claimQuerySignal_eq (opts : MwOptions) (req : Request) :
    claimQuerySignal opts req = queryLangOf opts req := by
  unfold claimQuerySignal queryLangOf
  cases hq : lookupA req.query opts.queryStringKey with
  | none => rfl
  | some v =>
    by_cases hl : v.length = 2
    · have hne : v ≠ "" := by
        intro he
        subst he
        simp at hl
      simp [hl, hne]
    · simp [hl]

theorem amendedCookieSignal_eq (opts : MwOptions) (req : Request) :
    amendedCookieSignal opts req = cookieLangOf opts req := by
  unfold amendedCookieSignal cookieLangOf
  cases hc : req.cookies with
  | none => rfl
  | some cs =>
    cases hl : lookupA cs opts.langCookie with
    | none => simp [hl]
    | some v => simp [hl]

/-- C1 (amended).  The resolved bundle is the store lookup of the
amended precedence chain: user preference, else present 2-character query
value, else present non-empty cookie value, else the negotiation result
over the usable languages, else the default abbreviation.  The
hypothesis reflects the Express contract for `req.acceptsLanguages`,
which returns `false` or one of the usable-language abbreviations, never
the empty string. -/
theorem C1_resolution_precedence (st : I18nState) (opts : MwOptions) (req : Request)
    (hacc : req.acceptsLanguages st.languages ≠ some "") :
    resolvedBundle st opts req = some (getLang st (amendedChainLang st opts req)) := by
  unfold resolvedBundle serveLocaleDataSt amendedChainLang
  rw [claimUserSignal_eq, claimQuerySignal_eq, amendedCookieSignal_eq]
  cases h1 : userLangOf req with
  | some s => simp [getLocaleData, Except.toOption, Except.map]
  | none =>
    cases h2 : queryLangOf opts req with
    | some v => simp [getLocaleData, Except.toOption, Except.map]
    | none =>
      cases h3 : cookieLangOf opts req with
      | some c => simp [getLocaleData, Except.toOption, Except.map]
      | none =>
        cases h4 : req.acceptsLanguages st.languages with
        | none => simp [getLocaleData, Except.toOption, Except.map]
        | some a =>
          have ha : ¬ a = "" := fun he => hacc (by rw [h4, he])
          simp [getLocaleData, Except.toOption, Except.map, ha]

/-- Witness for C1 on the concrete store and a signal-free request. -/
theorem C1_witness :
    resolvedBundle exStMw exOpts reqBlank =
      some (getLang exStMw (amendedChainLang exStMw exOpts reqBlank)) :=
  C1_resolution_precedence exStMw exOpts reqBlank (by decide)

/-- Counterexample to C1 as stated: a request whose `langCookie` cookie
is present with the empty value and whose Accept-Language negotiation
yields `es`.  The code treats the empty cookie value as falsy and
negotiates (serving the `es` bundle), while the claim's chain stops at
the present cookie and would serve the default bundle. -/
theorem C1_counterexample :
    resolvedBundle exStMw exOpts reqEmptyCookie ≠
      some (getLang exStMw (claimChainLang exStMw exOpts reqEmptyCookie)) := by
  decide

/-- C3.  An abbreviation that is not a key of the resource store — from
whichever signal — resolves to the default bundle without an error; in
particular a request whose only signal is a cookie holding an unloaded
abbreviation is served the default bundle. -/
theorem C3_unknown_falls_back (st : I18nState) (opts : MwOptions) (abbr : String)
    (req : Request) (h : lookupA st.resources abbr = none)
    (hu : userLangOf req = none) (hq : queryLangOf opts req = none)
    (hc : cookieLangOf opts req = some abbr) :
    getLocaleData st (LangInput.str abbr) = .ok st.defaultLang ∧
    resolvedBundle st opts req = some st.defaultLang := by
  have hg : getLang st abbr = st.defaultLang := by simp [getLang, h]
  constructor
  · simp [getLocaleData, hg]
  · simp [resolvedBundle, serveLocaleDataSt, hu, hq, hc, getLocaleData, hg,
      Except.toOption, Except.map]

/-- Witness for C3: a cookie holding the unloaded abbreviation `fr`. -/
theorem C3_witness :
    getLocaleData exStMw (LangInput.str "fr") = .ok exStMw.defaultLang ∧
    resolvedBundle exStMw exOpts reqFrCookie = some exStMw.defaultLang :=
  C3_unknown_falls_back exStMw exOpts "fr" reqFrCookie (by decide) (by decide) (by decide)
    (by decide)

/-- C4.  A cookie is issued exactly when no user-profile language is
present and the query value is present with exactly 2 characters; the
cookie carries the `langCookie` name, the raw query value, `Path=/` and a
max-age of one year (365 days in milliseconds); no other branch issues a
cookie. -/
theorem C4_cookie_write (st : I18nState) (opts : MwOptions) (req : Request) :
    issuedCookies st opts req =
      some (match claimUserSignal req, claimQuerySignal opts req with
        | none, some v =>
          [{ name := opts.langCookie, value := v, path := "/",
             maxAge := 365 * 24 * 60 * 60 * 1000 }]
        | _, _ => []) := by
  rw [claimUserSignal_eq, claimQuerySignal_eq]
  unfold issuedCookies serveLocaleDataSt
  cases h1 : userLangOf req with
  | some s => simp [getLocaleData, Except.toOption, Except.map]
  | none =>
    cases h2 : queryLangOf opts req with
    | some v =>
      simp [getLocaleData, Except.toOption, Except.map, cookieTTL]
    | none =>
      cases h3 : cookieLangOf opts req with
      | some c => simp [getLocaleData, Except.toOption, Except.map]
      | none =>
        cases h4 : req.acceptsLanguages st.languages <;>
          simp [getLocaleData, Except.toOption, Except.map]

/-- C6 counterexample: the middleware variant's `getLocaleData` raises
the input-validation error on a list, which the claim says must
succeed. -/
theorem C6_counterexample :
    getLocaleData exStMw (LangInput.list ["es"]) = .error "Wrong method input!" := rfl

/-- C6 (amended).  The i18n.js `getLocaleData` returns a bundle exactly
on strings and lists and raises the input-validation error otherwise; the
middleware.js `getLocaleData` returns a bundle exactly on strings and
raises the error on everything else, a list included. -/
theorem C6_input_validation (st st' : I18nState) (i : LangInput) :
    exceptOk (i18nGetLocaleData st i) = (i.isStr || i.isList) ∧
    exceptOk (getLocaleData st' i) = i.isStr := by
  cases i <;>
    simp [i18nGetLocaleData, getLocaleData, exceptOk, LangInput.isStr, LangInput.isList]

/-- C8.  The per-request resolution never modifies the engine state (the
resource store, the default bundle, the default abbreviation and the
usable-language list are returned unchanged), and running it again on
the state it returned yields the identical outcome. -/
theorem C8_resolution_pure (st : I18nState) (opts : MwOptions) (req : Request) :
    (serveLocaleDataSt st opts req).2 = st ∧
    (serveLocaleDataSt (serveLocaleDataSt st opts req).2 opts req).1 =
      (serveLocaleDataSt st opts req).1 :=
  ⟨rfl, rfl⟩

/-- C9.  `serveLocaleData` never reads `queryStringEnabled`: the whole
outcome — resolved bundle, issued cookies and final state — is the same
for any two values of the option. -/
theorem C9_queryStringEnabled_no_effect (st : I18nState) (opts : MwOptions) (req : Request)
    (b₁ b₂ : Bool) :
    serveLocaleDataSt st { opts with queryStringEnabled := b₁ } req =
      serveLocaleDataSt st { opts with queryStringEnabled := b₂ } req :=
  rfl

/-- C5 (code bug).  With `endpointPath = "/i18n/"` the trailing slash is
NOT removed — line 268 discards the `substring` result — so the routes
are registered at `"/i18n/"`, `"/i18n//strings"` and `"/i18n//languages"`,
observably different from configuring `"/i18n"`. -/
theorem C5_trailing_slash_not_removed :
    endpointRoutes "/i18n/" = ["/i18n/", "/i18n//strings", "/i18n//languages"] ∧
    endpointRoutes "/i18n/" ≠ endpointRoutes "/i18n" := by
  decide

/-- C7.  The languages endpoint serves one `{name, value}` entry per
entry of the resource store — whose keys are pairwise distinct after
initialization — and its response does not depend on the request. -/
theorem C7_languages_endpoint (dir : String → Option LangFile) (abbr : String)
    (cfg : List String) (st : I18nState) (req req' : Request)
    (h : mwInit dir abbr cfg = some st) :
    serveLanguages st req = serveLanguages st req' ∧
    serveLanguages st req =
      st.resources.map (fun p => { name := p.2.language, value := p.2.lang }) ∧
    (serveLanguages st req).length = st.resources.length ∧
    (st.resources.map Prod.fst).Nodup := by
  refine ⟨rfl, rfl, ?_, ?_⟩
  · simp [serveLanguages, getLanguages]
  · obtain ⟨f0, hd0, hdb, habbr, hbl, _⟩ := mwInit_spec dir abbr cfg st h
    refine buildLangs_nodup dir abbr st.defaultLang.strings cfg
      [(abbr, st.defaultLang)] st.resources ?_ hbl
    simp

/-- Witness for C7 on the concrete store: two different requests receive
the same 2-entry language list. -/
theorem C7_witness :
    serveLanguages exStMw reqBlank = serveLanguages exStMw reqFrCookie ∧
    serveLanguages exStMw reqBlank =
      exStMw.resources.map (fun p => { name := p.2.language, value := p.2.lang }) ∧
    (serveLanguages exStMw reqBlank).length = exStMw.resources.length ∧
    (exStMw.resources.map Prod.fst).Nodup :=
  C7_languages_endpoint exDir "en" ["es"] exStMw reqBlank reqFrCookie (by decide)

/-- C10.  In the i18n.js variant, the resolution of the one-element list
`["null"]` replaces it by `[defaultLangAbbr]` and yields the default
bundle (for a default abbreviation without a dash, which `parseLangs`
passes through unchanged). -/
theorem C10_null_list_default (dir : String → Option LangFile) (abbr : String)
    (cfg : List String) (st : I18nState) (h : i18nInit dir abbr cfg = some st)
    (hdash : abbr.toList.contains '-' = false) :
    i18nGetLocaleData st (LangInput.list ["null"]) = .ok st.defaultLang := by
  obtain ⟨habbr, hres⟩ := i18nInit_spec dir abbr cfg st h
  simp only [i18nGetLocaleData]
  rw [if_pos (by exact ⟨rfl, rfl⟩)]
  rw [habbr]
  unfold getLangs parseLangs
  have hd' : '-' ∉ abbr.data := by simpa [String.toList] using hdash
  have hitem : parseLangItem abbr = abbr := by
    simp [parseLangItem]
    intro hmem
    exact absurd hmem hd'
  by_cases he : abbr = ""
  · subst he
    simp [hitem, uniqJS, uniqAux, getLangsAux]
  · simp [hitem, he, uniqJS, uniqAux, getLangsAux, hres]

/-- Witness for C10 on the concrete i18n.js store with default `es`. -/
theorem C10_witness :
    i18nGetLocaleData exStI18n (LangInput.list ["null"]) = .ok exStI18n.defaultLang :=
  C10_null_list_default exDir "es" ["en"] exStI18n (by decide) (by decide)
